import Mathlib

/-!
Verification of the `xll-gen/sugar` COM-automation library.

The Go source is shallowly embedded: the foreign COM runtime
(`go-ole`/`oleutil`) is modelled as an oracle (`World`) mapping handles and
names to results, and every operation additionally returns the list of
foreign calls it performed (`FCall` trace), so that "no foreign call" and
"exactly one addRef" are provable statements.  Handles (`*ole.IDispatch`)
are modelled as natural numbers, Go `error` values as `Option String`
(`none` = nil), and `ole.VARIANT` results as `Variant` (a dispatch handle
or a scalar).

The repository contains several lineages of the same library.  The main
one (src/sugar.go lines 1-260, src/context.go) is embedded under the plain
names `Chain`, `Context`.  The releaseChain lineage (src/sugar.go lines
261-592) is `ChainR`, and the autoRelease lineage (src/unnamed/part_008)
is `ChainA`.  The runner (src/runner.go and src/unnamed/part_010) and the
expression engine (src/expression/expression.go) follow.
-/

namespace Sugar

/-- Model of Go `float64`.  Finite values are exact rationals; the
infinities and NaN are separate constructors so that IEEE division by zero
is total, as in Go.  Overflow of finite arithmetic to infinity is not
modelled (no claim depends on it). -/
inductive GoFloat where
  | finite (q : ℚ)
  | inf
  | negInf
  | nan
deriving DecidableEq

/-- Go `float64` addition (finite cases exact; IEEE special cases). -/
def GoFloat.add : GoFloat → GoFloat → GoFloat
  | .finite a, .finite b => .finite (a + b)
  | .nan, _ => .nan
  | _, .nan => .nan
  | .inf, .negInf => .nan
  | .negInf, .inf => .nan
  | .inf, _ => .inf
  | _, .inf => .inf
  | .negInf, _ => .negInf
  | _, .negInf => .negInf

/-- Go `float64` subtraction. -/
def GoFloat.sub : GoFloat → GoFloat → GoFloat
  | .finite a, .finite b => .finite (a - b)
  | .nan, _ => .nan
  | _, .nan => .nan
  | .inf, .inf => .nan
  | .negInf, .negInf => .nan
  | .inf, _ => .inf
  | .negInf, _ => .negInf
  | _, .inf => .negInf
  | _, .negInf => .inf

/-- Go `float64` multiplication (sign handling of infinities elided to NaN
for the zero cases; no claim depends on non-finite multiplication). -/
def GoFloat.mul : GoFloat → GoFloat → GoFloat
  | .finite a, .finite b => .finite (a * b)
  | _, _ => .nan

/-- Go `float64` division: division by zero yields an infinity or NaN,
never an error, exactly as IEEE 754 / Go. -/
def GoFloat.div : GoFloat → GoFloat → GoFloat
  | .finite a, .finite b =>
      if b ≠ 0 then .finite (a / b)
      else if a > 0 then .inf
      else if a < 0 then .negInf
      else .nan
  | _, _ => .nan

/-- Scalar values travelling through the API (Go `interface{}` restricted
to the kinds the library produces and consumes).  Go's several integer
kinds are collapsed to `Int`. -/
inductive GoVal where
  | vint (n : Int)
  | vfloat (f : GoFloat)
  | vstr (s : String)
  | vbool (b : Bool)
  | vnull
deriving DecidableEq

/-- An `ole.VARIANT` operation result: either a dispatch-object reference
(`VT == ole.VT_DISPATCH`) or a scalar. -/
inductive Variant where
  | vdisp (h : Nat)
  | vscalar (v : GoVal)
deriving DecidableEq

instance {ε α : Type} [DecidableEq ε] [DecidableEq α] : DecidableEq (Except ε α) := fun a b =>
  match a, b with
  | .error e, .error f =>
      if h : e = f then .isTrue (congrArg Except.error h)
      else .isFalse fun hh => h (Except.error.inj hh)
  | .ok x, .ok y =>
      if h : x = y then .isTrue (congrArg Except.ok h)
      else .isFalse fun hh => h (Except.ok.inj hh)
  | .error _, .ok _ => .isFalse fun hh => Except.noConfusion hh
  | .ok _, .error _ => .isFalse fun hh => Except.noConfusion hh

/-- One call into the foreign COM runtime.  Traversal operations return
the trace of these, so claims about "no foreign call" / "exactly one
addRef" are statements about the trace. -/
inductive FCall where
  | getProperty (h : Nat) (name : String)
  | callMethod (h : Nat) (name : String)
  | putProperty (h : Nat) (name : String)
  | addRef (h : Nat)
  | release (h : Nat)
deriving DecidableEq

/-- The foreign runtime oracle: what each COM operation on each handle
answers.  `enumerate` abstracts the `_NewEnum` / `IEnumVARIANT.Next`
pipeline into the list of items it yields.  The oracle is pure; the trace
of calls actually made is produced by the operations themselves. -/
structure World where
  getProp : Nat → String → List GoVal → Except String Variant
  callM : Nat → String → List GoVal → Except String Variant
  putProp : Nat → String → List GoVal → Except String Unit
  enumerate : Nat → Except String (List Variant)

/-- `Chain` of the main (Context/arena) lineage, src/sugar.go lines 13-19:
`disp` (handle or nil), `err`, `lastResult`, and `ctx`.  The Go `ctx`
field is a pointer to the (single) enclosing `Context`; it is modelled as
a `Bool` recording whether the chain is attached to the ambient arena. -/
structure Chain where
  disp : Option Nat
  err : Option String
  lastResult : Option Variant
  ctx : Bool
deriving DecidableEq

/-- src/sugar.go lines 67-89, `Chain.handleResult`: on a foreign error a
fresh errored chain; on success a new chain holding the result, which owns
a new reference (one `AddRef`) and is arena-tracked when the result is a
dispatch object, and borrows the receiver's handle otherwise.  Returns
(new chain, foreign calls, chains registered with the arena). -/
def Chain.handleResult (c : Chain) (res : Except String Variant) :
    Chain × List FCall × List Chain :=
  match res with
  | .error e => ({ disp := none, err := some e, lastResult := none, ctx := c.ctx }, [], [])
  | .ok v =>
    match v with
    | .vdisp h =>
        let nc : Chain := { disp := some h, err := none, lastResult := some v, ctx := c.ctx }
        (nc, [.addRef h], if c.ctx then [nc] else [])
    | .vscalar _ =>
        ({ disp := c.disp, err := none, lastResult := some v, ctx := c.ctx }, [], [])

/-- src/sugar.go lines 92-101, `Chain.Get`: short-circuits on an errored
or handle-less receiver without any foreign call; otherwise one
`GetProperty` followed by `handleResult`. -/
def Chain.Get (w : World) (c : Chain) (prop : String) (params : List GoVal) :
    Chain × List FCall × List Chain :=
  match c.err with
  | some e => ({ disp := none, err := some e, lastResult := none, ctx := c.ctx }, [], [])
  | none =>
    match c.disp with
    | none => ({ disp := none, err := some "dispatch is nil", lastResult := none, ctx := c.ctx }, [], [])
    | some h =>
        let (nc, tr, tk) := c.handleResult (w.getProp h prop params)
        (nc, .getProperty h prop :: tr, tk)

/-- src/sugar.go lines 104-113, `Chain.Call`: same contract as `Get` with
`CallMethod`. -/
def Chain.Call (w : World) (c : Chain) (method : String) (params : List GoVal) :
    Chain × List FCall × List Chain :=
  match c.err with
  | some e => ({ disp := none, err := some e, lastResult := none, ctx := c.ctx }, [], [])
  | none =>
    match c.disp with
    | none => ({ disp := none, err := some "dispatch is nil", lastResult := none, ctx := c.ctx }, [], [])
    | some h =>
        let (nc, tr, tk) := c.handleResult (w.callM h method params)
        (nc, .callMethod h method :: tr, tk)

/-- src/sugar.go lines 116-127, `Chain.Put`: short-circuits returning the
receiver itself; on success also returns the receiver itself; on a foreign
put failure returns a fresh errored chain keeping the receiver's handle. -/
def Chain.Put (w : World) (c : Chain) (prop : String) (params : List GoVal) :
    Chain × List FCall :=
  match c.err with
  | some _ => (c, [])
  | none =>
    match c.disp with
    | none => (c, [])
    | some h =>
      match w.putProp h prop params with
      | .error e => ({ disp := some h, err := some e, lastResult := none, ctx := c.ctx },
                     [.putProperty h prop])
      | .ok _ => (c, [.putProperty h prop])

/-- src/sugar.go lines 224-236, `Chain.Release`: releases the held
dispatch (one foreign `Release` when a handle is live), clears the cached
result, and returns-and-clears the recorded error.  Returns (chain state
after the call, foreign calls, returned Go error). -/
def Chain.Release (c : Chain) : Chain × List FCall × Option String :=
  let tr : List FCall := match c.disp with
    | some h => [.release h]
    | none => []
  ({ disp := none, err := none, lastResult := none, ctx := c.ctx }, tr, c.err)

/-- src/sugar.go lines 244-255, `Chain.Value`: error if the chain is
errored; nil result when nothing is cached; the handle-not-scalar failure
when the last result is a dispatch; the cached scalar otherwise.  This
lineage's `Value` makes no foreign call and does not release. -/
def Chain.Value (c : Chain) : Except String GoVal :=
  match c.err with
  | some e => .error e
  | none =>
    match c.lastResult with
    | none => .ok .vnull
    | some (.vdisp _) => .error "result is IDispatch, use Store"
    | some (.vscalar v) => .ok v

/-- src/context.go lines 11-13, `Context`: the arena.  The tracked list is
`Option` so that the Go `c.chains == nil` state after a release is
distinguishable from an empty-but-live list.  Entries are the states of
the tracked chains (callers register each chain once, per the spec). -/
structure Context where
  chains : Option (List Chain)
deriving DecidableEq

/-- The loop body sequence of `Context.Release`: releases the given chains
in list order, accumulating the foreign calls and keeping the first
non-nil error (src/context.go lines 64-69). -/
def releaseSeq : List Chain → List FCall × Option String
  | [] => ([], none)
  | c :: cs =>
      let (_, tr, e) := Chain.Release c
      let (trs, fe) := releaseSeq cs
      (tr ++ trs, match e with
        | some x => some x
        | none => fe)

/-- src/context.go lines 60-72, `Context.Release`: nil list short-circuit,
otherwise release every tracked chain in reverse registration order,
return the first error, and clear the list. -/
def Context.Release (ctx : Context) : Context × List FCall × Option String :=
  match ctx.chains with
  | none => (ctx, [], none)
  | some l =>
      let (tr, fe) := releaseSeq l.reverse
      ({ chains := none }, tr, fe)

/-- The foreign calls one `Chain.Release` performs: one `Release` when a
handle is live, none otherwise. -/
def chainRelTrace (c : Chain) : List FCall :=
  match c.disp with
  | some h => [.release h]
  | none => []

/-- First non-`none` entry of a list of optional errors (the `firstErr`
accumulation pattern of `Context.Release`). -/
def firstSome : List (Option String) → Option String
  | [] => none
  | some e :: _ => some e
  | none :: rest => firstSome rest

theorem releaseSeq_eq (l : List Chain) :
    releaseSeq l = ((l.map chainRelTrace).flatten, firstSome (l.map Chain.err)) := by
  induction l with
  | nil => rfl
  | cons c cs ih =>
      simp only [releaseSeq, ih, List.map_cons, List.flatten, Chain.Release, chainRelTrace,
        firstSome]
      cases h : c.err <;> simp [firstSome]

/-- `ChainA`, the autoRelease lineage of src/unnamed/part_008 (fields at
lines 14-20 there).  Only the manual (releaseChain) path matters to the
claims; `runtime.SetFinalizer` effects of the autoRelease mode are not
modelled. -/
structure ChainA where
  disp : Option Nat
  err : Option String
  lastResult : Option Variant
  autoRelease : Bool
  releaseChain : List Nat
deriving DecidableEq

/-- src/unnamed/part_008 lines 154-166, `Chain.Release` of the autoRelease
lineage: releases the releaseChain entries in reverse creation order and
clears the list, clears the cached variant (`VariantClear`, modelled by
dropping `lastResult`), and returns the recorded error WITHOUT clearing
it. -/
def ChainA.Release (c : ChainA) : ChainA × List FCall × Option String :=
  ({ c with releaseChain := [], lastResult := none },
   c.releaseChain.reverse.map FCall.release,
   c.err)

/-- `ChainR`, the releaseChain lineage of src/sugar.go lines 274-279. -/
structure ChainR where
  disp : Option Nat
  err : Option String
  lastResult : Option Variant
  releaseChain : List Nat
deriving DecidableEq

/-- src/sugar.go lines 338-357, `Chain.handleResult` of the releaseChain
lineage: assigns into the RECEIVER (`c.err = err`, `c.lastResult = result`,
`c.disp = newDisp`) and returns it; the function's output is the updated
receiver state.  (The `VariantClear` of the replaced `lastResult` is not
a dispatch release and is not traced.) -/
def ChainR.handleResult (c : ChainR) (res : Except String Variant) :
    ChainR × List FCall :=
  match res with
  | .error e => ({ c with err := some e }, [])
  | .ok v =>
    match v with
    | .vdisp h =>
        ({ c with lastResult := some v, disp := some h,
                  releaseChain := c.releaseChain ++ [h] }, [.addRef h])
    | .vscalar _ => ({ c with lastResult := some v }, [])

/-- src/sugar.go lines 360-366, `Chain.Get` of the releaseChain lineage:
returns the receiver unchanged on short-circuit, otherwise the receiver
updated in place by `handleResult`. -/
def ChainR.Get (w : World) (c : ChainR) (prop : String) (params : List GoVal) :
    ChainR × List FCall :=
  match c.err, c.disp with
  | some _, _ => (c, [])
  | none, none => (c, [])
  | none, some h =>
      let (nc, tr) := c.handleResult (w.getProp h prop params)
      (nc, .getProperty h prop :: tr)

/-- C1: for every Chain whose error field is non-nil, `Get` and `Call`
(with any property/method name and any arguments) perform no foreign call
and return an errored Chain carrying exactly the same error value
(src/sugar.go lines 92-101 and 104-113). -/
theorem C1_errored_chain_short_circuits (w : World) (c : Chain) (e : String)
    (he : c.err = some e) (prop method : String) (params : List GoVal) :
    Chain.Get w c prop params =
      ({ disp := none, err := some e, lastResult := none, ctx := c.ctx }, [], []) ∧
    Chain.Call w c method params =
      ({ disp := none, err := some e, lastResult := none, ctx := c.ctx }, [], []) := by
  constructor <;> simp [Chain.Get, Chain.Call, he]

/-- Witness for C1 at a concrete errored chain. -/
theorem C1_errored_chain_short_circuits_witness :
    Chain.Get { getProp := fun _ _ _ => .error "w", callM := fun _ _ _ => .error "w",
                putProp := fun _ _ _ => .error "w", enumerate := fun _ => .error "w" }
        { disp := some 3, err := some "boom", lastResult := none, ctx := true } "P" [] =
      ({ disp := none, err := some "boom", lastResult := none, ctx := true }, [], []) :=
  (C1_errored_chain_short_circuits _
    { disp := some 3, err := some "boom", lastResult := none, ctx := true }
    "boom" rfl "P" "M" []).1

/-- A concrete foreign runtime used by the witnesses: handle 0 is the root
object with a dispatch property `X` (handle 1), a scalar property `Count`,
a method `Add` returning a dispatch (handle 4), and three enumerable
dispatch children; property `Value` of handle 1 and `Visible` of handle 0
accept writes. -/
def wEx : World where
  getProp := fun h p _ =>
    if h = 0 ∧ p = "X" then .ok (.vdisp 1)
    else if h = 0 ∧ p = "Count" then .ok (.vscalar (.vint 2))
    else .error "no such property"
  callM := fun h m _ =>
    if h = 0 ∧ m = "Add" then .ok (.vdisp 4)
    else if h = 0 ∧ m = "Total" then .ok (.vscalar (.vint 7))
    else .error "no such method"
  putProp := fun h p _ =>
    if h = 1 ∧ p = "Value" then .ok ()
    else if h = 0 ∧ p = "Visible" then .ok ()
    else .error "no such property"
  enumerate := fun h =>
    if h = 0 then .ok [.vdisp 11, .vdisp 12, .vdisp 13] else .error "no enum"

/-- A live root chain on handle 0, outside any arena. -/
def rootEx : Chain := { disp := some 0, err := none, lastResult := none, ctx := false }

/-- A live root chain on handle 0, attached to the arena. -/
def rootExT : Chain := { disp := some 0, err := none, lastResult := none, ctx := true }

/-- C3: on a non-errored Chain with a live handle, a successful `Get` or
`Call` returning a dispatch produces a Chain owning a fresh reference
(exactly one `addRef`) that is arena-registered exactly when the receiver
has an arena; a scalar result produces a Chain that caches the scalar,
borrows the receiver's handle, performs no `addRef` and is not registered
(src/sugar.go lines 67-89, 92-101, 104-113). -/
theorem C3_result_ownership (w : World) (c : Chain) (h : Nat) (name : String)
    (params : List GoVal) (h1 : c.err = none) (h2 : c.disp = some h) :
    (∀ h2', w.getProp h name params = .ok (.vdisp h2') →
       Chain.Get w c name params =
         ({ disp := some h2', err := none, lastResult := some (.vdisp h2'), ctx := c.ctx },
          [.getProperty h name, .addRef h2'],
          if c.ctx then
            [{ disp := some h2', err := none, lastResult := some (.vdisp h2'), ctx := c.ctx }]
          else [])) ∧
    (∀ v, w.getProp h name params = .ok (.vscalar v) →
       Chain.Get w c name params =
         ({ disp := some h, err := none, lastResult := some (.vscalar v), ctx := c.ctx },
          [.getProperty h name], [])) ∧
    (∀ h2', w.callM h name params = .ok (.vdisp h2') →
       Chain.Call w c name params =
         ({ disp := some h2', err := none, lastResult := some (.vdisp h2'), ctx := c.ctx },
          [.callMethod h name, .addRef h2'],
          if c.ctx then
            [{ disp := some h2', err := none, lastResult := some (.vdisp h2'), ctx := c.ctx }]
          else [])) ∧
    (∀ v, w.callM h name params = .ok (.vscalar v) →
       Chain.Call w c name params =
         ({ disp := some h, err := none, lastResult := some (.vscalar v), ctx := c.ctx },
          [.callMethod h name], [])) := by
  refine ⟨fun h2' hok => ?_, fun v hok => ?_, fun h2' hok => ?_, fun v hok => ?_⟩ <;>
    simp [Chain.Get, Chain.Call, Chain.handleResult, h1, h2, hok]

/-- Witness for C3: dispatch and scalar results of `Get`/`Call` on the
concrete runtime, with and without an arena. -/
theorem C3_result_ownership_witness :
    Chain.Get wEx rootExT "X" [] =
      ({ disp := some 1, err := none, lastResult := some (.vdisp 1), ctx := true },
       [.getProperty 0 "X", .addRef 1],
       [{ disp := some 1, err := none, lastResult := some (.vdisp 1), ctx := true }]) ∧
    Chain.Get wEx rootEx "Count" [] =
      ({ disp := some 0, err := none, lastResult := some (.vscalar (.vint 2)), ctx := false },
       [.getProperty 0 "Count"], []) ∧
    Chain.Call wEx rootEx "Add" [] =
      ({ disp := some 4, err := none, lastResult := some (.vdisp 4), ctx := false },
       [.callMethod 0 "Add", .addRef 4], []) := by
  refine ⟨((C3_result_ownership wEx rootExT 0 "X" [] rfl rfl).1 1 (by decide)).trans (by decide),
    ((C3_result_ownership wEx rootEx 0 "Count" [] rfl rfl).2.1 (.vint 2) (by decide)).trans
      (by decide),
    ((C3_result_ownership wEx rootEx 0 "Add" [] rfl rfl).2.2.1 4 (by decide)).trans (by decide)⟩

/-- C2: one `Context.Release` on a context tracking the chains `l`
releases them in exact reverse registration order (the trace is the
concatenation of the per-chain release traces over `l.reverse`), attempts
every tracked chain, returns the first error encountered (nil if none),
and clears the list; a subsequent `Release` is a no-op returning nil
(src/context.go lines 60-72). -/
theorem C2_context_release_lifo (ctx : Context) (l : List Chain)
    (hc : ctx.chains = some l) :
    Context.Release ctx =
      ({ chains := none },
       (l.reverse.map chainRelTrace).flatten,
       firstSome (l.reverse.map Chain.err)) ∧
    Context.Release { chains := none } = ({ chains := none }, [], none) := by
  refine ⟨?_, rfl⟩
  simp [Context.Release, hc, releaseSeq_eq]

/-- Three tracked chains for the C2 witness: registration order is
handle 1 (no error), handle 2 (error "e2"), then a handle-less errored
chain (error "e3"). -/
def ctxEx : Context :=
  { chains := some
      [{ disp := some 1, err := none, lastResult := none, ctx := true },
       { disp := some 2, err := some "e2", lastResult := none, ctx := true },
       { disp := none, err := some "e3", lastResult := none, ctx := true }] }

/-- Witness for C2: the concrete context releases handle 2 before handle 1
(reverse of registration), skips the handle-less chain's foreign release
while still taking its error, and returns the first error in release
order, "e3". -/
theorem C2_context_release_lifo_witness :
    Context.Release ctxEx =
      ({ chains := none }, [.release 2, .release 1], some "e3") :=
  ((C2_context_release_lifo ctxEx _ rfl).1).trans (by decide)

/-- C4 counterexample (part_008 lineage): a chain that recorded the error
"boom" (e.g. a failed `Get` after `From`).  The second `Release` performs
no foreign release, but returns "boom" again instead of nil, because this
lineage's `Release` does not clear the recorded error
(src/unnamed/part_008 lines 154-166). -/
theorem C4_counterexample :
    (ChainA.Release (ChainA.Release
        { disp := none, err := some "boom", lastResult := none,
          autoRelease := false, releaseChain := [] }).1).2.1 = [] ∧
    (ChainA.Release (ChainA.Release
        { disp := none, err := some "boom", lastResult := none,
          autoRelease := false, releaseChain := [] }).1).2.2 = some "boom" ∧
    (ChainA.Release (ChainA.Release
        { disp := none, err := some "boom", lastResult := none,
          autoRelease := false, releaseChain := [] }).1).2.2 ≠ none := by
  decide

/-- C4 as amended: after one `Release`, a second `Release` performs no
foreign release in either lineage; in the Context-arena lineage
(src/sugar.go lines 224-236) it also returns nil, because the first call
cleared the error, while in the part_008 lineage the second call returns
the chain's still-recorded error (nil only when no error was recorded). -/
theorem C4_release_idempotent_amended (c : Chain) (cA : ChainA) :
    (Chain.Release (Chain.Release c).1).2 = ([], none) ∧
    (ChainA.Release (ChainA.Release cA).1).2 = ([], cA.err) := by
  exact ⟨rfl, rfl⟩

/-- C5 counterexample (releaseChain lineage, src/sugar.go lines 338-357,
360-366): `Get` on a live chain assigns the result into the receiver and
returns it — the receiver's `lastResult` field changes from `none` to the
fetched scalar, so traversal neither returns a fresh instance nor leaves
the receiver's fields unchanged. -/
theorem C5_counterexample :
    (ChainR.Get wEx { disp := some 0, err := none, lastResult := none, releaseChain := [] }
        "Count" []).1 ≠
      { disp := some 0, err := none, lastResult := none, releaseChain := [] } ∧
    (ChainR.Get wEx { disp := some 0, err := none, lastResult := none, releaseChain := [] }
        "Count" []).1.lastResult = some (.vscalar (.vint 2)) := by
  decide

/-- C5 as amended: in the Context-arena lineage, `Get` and `Call` return a
new Chain, but `Put` returns the receiver itself — unchanged — both on
success and on short-circuit (a fresh errored Chain only on a foreign put
failure); and in the releaseChain lineage (src/sugar.go lines 338-357)
traversal updates the receiver's fields in place and returns the
receiver. -/
theorem C5_traversal_frame_amended (w : World) (c : Chain) (cR : ChainR)
    (prop : String) (params : List GoVal) :
    (∀ h, c.err = none → c.disp = some h → w.putProp h prop params = .ok () →
       Chain.Put w c prop params = (c, [.putProperty h prop])) ∧
    (∀ e, c.err = some e → Chain.Put w c prop params = (c, [])) ∧
    (∀ h v, cR.err = none → cR.disp = some h →
       w.getProp h prop params = .ok (.vscalar v) →
       ChainR.Get w cR prop params =
         ({ cR with lastResult := some (.vscalar v) }, [.getProperty h prop])) := by
  refine ⟨fun h h1 h2 hok => ?_, fun e he => ?_, fun h v h1 h2 hok => ?_⟩
  · simp [Chain.Put, h1, h2, hok]
  · simp [Chain.Put, he]
  · simp [ChainR.Get, h1, h2, ChainR.handleResult, hok]

/-- Witness for the amended C5: a successful `Put` on the concrete runtime
returns the receiver itself, and the releaseChain-lineage `Get` returns
the receiver with its `lastResult` field overwritten in place. -/
theorem C5_traversal_frame_amended_witness :
    Chain.Put wEx rootEx "Visible" [.vbool false] = (rootEx, [.putProperty 0 "Visible"]) ∧
    ChainR.Get wEx { disp := some 0, err := none, lastResult := none, releaseChain := [] }
        "Count" [] =
      ({ disp := some 0, err := none, lastResult := some (.vscalar (.vint 2)),
         releaseChain := [] }, [.getProperty 0 "Count"]) := by
  refine ⟨(C5_traversal_frame_amended wEx rootEx
      { disp := some 0, err := none, lastResult := none, releaseChain := [] }
      "Visible" [.vbool false]).1 0 rfl rfl (by decide), ?_⟩
  exact ((C5_traversal_frame_amended wEx rootEx
      { disp := some 0, err := none, lastResult := none, releaseChain := [] }
      "Count" []).2.2 0 (.vint 2) rfl rfl (by decide)).trans (by decide)

/-- C8: on a non-errored Chain, `Value` fails (with the handle-not-scalar
error) exactly when the last result is a dispatch reference; a cached
scalar is returned without error, and an empty cache yields the nil value
without error (src/sugar.go lines 244-255). -/
theorem C8_value_handle_not_scalar (c : Chain) (hne : c.err = none) :
    ((∃ e, Chain.Value c = .error e) ↔ (∃ h, c.lastResult = some (.vdisp h))) ∧
    (∀ h, c.lastResult = some (.vdisp h) →
       Chain.Value c = .error "result is IDispatch, use Store") ∧
    (∀ v, c.lastResult = some (.vscalar v) → Chain.Value c = .ok v) ∧
    (c.lastResult = none → Chain.Value c = .ok .vnull) := by
  unfold Chain.Value
  rw [hne]
  rcases hl : c.lastResult with _ | v
  · simp
  · cases v <;> simp

/-- Witness for C8 at concrete chains: a cached dispatch makes `Value`
fail, a cached scalar is returned as-is. -/
theorem C8_value_handle_not_scalar_witness :
    Chain.Value { disp := some 1, err := none, lastResult := some (.vdisp 1), ctx := false } =
      .error "result is IDispatch, use Store" ∧
    Chain.Value { disp := some 0, err := none, lastResult := some (.vscalar (.vint 2)),
                  ctx := false } = .ok (.vint 2) :=
  ⟨(C8_value_handle_not_scalar
      { disp := some 1, err := none, lastResult := some (.vdisp 1), ctx := false } rfl).2.1
      1 rfl,
   (C8_value_handle_not_scalar
      { disp := some 0, err := none, lastResult := some (.vscalar (.vint 2)), ctx := false }
      rfl).2.2.1 (.vint 2) rfl⟩

/-- The fresh chain built for one enumerated dispatch item inside
`Chain.ForEach` (src/sugar.go lines 169-172): owns the item's handle and
inherits the receiver's arena attachment. -/
def mkItemChain (cctx : Bool) (h : Nat) : Chain :=
  { disp := some h, err := none, lastResult := none, ctx := cctx }

/-- The enumeration loop of `Chain.ForEach` (src/sugar.go lines 159-189):
per dispatch item, `AddRef`, build the item chain (arena-tracked when the
receiver has an arena), invoke the callback, release the item chain right
away when there is no arena, and stop when the callback returns false;
non-dispatch items are skipped.  Returns (foreign calls, chains passed to
the callback in order, chains registered with the arena). -/
def forEachLoop (cctx : Bool) (f : Chain → Bool) :
    List Variant → List FCall × List Chain × List Chain
  | [] => ([], [], [])
  | .vdisp h :: rest =>
      let ic := mkItemChain cctx h
      let post : List FCall := if cctx then [] else [.release h]
      let tk : List Chain := if cctx then [ic] else []
      if f ic then
        let (tr, cs, tks) := forEachLoop cctx f rest
        (.addRef h :: (post ++ tr), ic :: cs, tk ++ tks)
      else
        (.addRef h :: post, [ic], tk)
  | .vscalar _ :: rest => forEachLoop cctx f rest

/-- src/sugar.go lines 130-192, `Chain.ForEach`: short-circuits on an
errored or handle-less receiver; fetches the enumerator (the `_NewEnum`
property — the `IEnumVARIANT` plumbing is abstracted into
`World.enumerate`) and runs the loop; returns the receiver.  Result is
(returned chain, foreign calls, callback invocations, arena-tracked
chains). -/
def Chain.ForEach (w : World) (c : Chain) (f : Chain → Bool) :
    Chain × List FCall × List Chain × List Chain :=
  match c.err, c.disp with
  | some _, _ => (c, [], [], [])
  | none, none => (c, [], [], [])
  | none, some h =>
    match w.enumerate h with
    | .error e => ({ disp := none, err := some e, lastResult := none, ctx := c.ctx },
                   [.getProperty h "_NewEnum"], [], [])
    | .ok items =>
        let (tr, cs, tks) := forEachLoop c.ctx f items
        (c, .getProperty h "_NewEnum" :: tr, cs, tks)

theorem forEachLoop_all_continue (b : Bool) (f : Chain → Bool) (hf : ∀ x, f x = true)
    (hs : List Nat) :
    forEachLoop b f (hs.map .vdisp) =
      ((hs.map fun g => FCall.addRef g :: (if b then [] else [.release g])).flatten,
       hs.map (mkItemChain b),
       if b then hs.map (mkItemChain b) else []) := by
  induction hs with
  | nil => cases b <;> rfl
  | cons g gs ih =>
      simp only [List.map_cons, forEachLoop, hf, if_true]
      rw [ih]
      cases b <;> simp

theorem forEachLoop_break (b : Bool) (f : Chain → Bool) (x : Nat) (post : List Nat)
    (hx : f (mkItemChain b x) = false) (pre : List Nat)
    (hpre : ∀ g ∈ pre, f (mkItemChain b g) = true) :
    forEachLoop b f ((pre ++ x :: post).map .vdisp) =
      ((pre.map fun g => FCall.addRef g :: (if b then [] else [.release g])).flatten ++
         FCall.addRef x :: (if b then [] else [.release x]),
       (pre ++ [x]).map (mkItemChain b),
       if b then (pre ++ [x]).map (mkItemChain b) else []) := by
  induction pre with
  | nil =>
      simp only [List.nil_append, List.map_cons, forEachLoop, hx]
      cases b <;> simp
  | cons g gs ih =>
      have hg : f (mkItemChain b g) = true := hpre g (List.mem_cons_self g gs)
      have ih' := ih (fun y hy => hpre y (List.mem_cons_of_mem g hy))
      simp only [List.cons_append, List.map_cons, forEachLoop, hg, if_true, List.append_eq]
      rw [ih']
      cases b <;> simp

/-- C9: over an enumeration of dispatch children `hs`, `ForEach` invokes
the callback once per child when it always continues (each invocation
receiving a freshly `AddRef`ed chain on that child, arena-registered when
the receiver has an arena and released immediately after the callback
otherwise), and exactly `pre.length + 1` times when the callback first
signals break on child `x` after accepting the children `pre`
(src/sugar.go lines 130-192). -/
theorem C9_foreach_counts (w : World) (c : Chain) (h : Nat) (hs : List Nat)
    (f : Chain → Bool) (h1 : c.err = none) (h2 : c.disp = some h)
    (henum : w.enumerate h = .ok (hs.map .vdisp)) :
    ((∀ x, f x = true) →
       Chain.ForEach w c f =
         (c, .getProperty h "_NewEnum" ::
               (hs.map fun g => FCall.addRef g ::
                 (if c.ctx then [] else [.release g])).flatten,
          hs.map (mkItemChain c.ctx),
          if c.ctx then hs.map (mkItemChain c.ctx) else [])) ∧
    (∀ pre x post, hs = pre ++ x :: post →
       (∀ g ∈ pre, f (mkItemChain c.ctx g) = true) →
       f (mkItemChain c.ctx x) = false →
       Chain.ForEach w c f =
         (c, .getProperty h "_NewEnum" ::
               ((pre.map fun g => FCall.addRef g ::
                  (if c.ctx then [] else [.release g])).flatten ++
                FCall.addRef x :: (if c.ctx then [] else [.release x])),
          (pre ++ [x]).map (mkItemChain c.ctx),
          if c.ctx then (pre ++ [x]).map (mkItemChain c.ctx) else [])) := by
  constructor
  · intro hf
    simp only [Chain.ForEach, h1, h2, henum]
    rw [forEachLoop_all_continue c.ctx f hf hs]
  · intro pre x post hsplit hpre hx
    subst hsplit
    simp only [Chain.ForEach, h1, h2, henum]
    rw [forEachLoop_break c.ctx f x post hx pre hpre]

/-- Witness for C9 on the concrete runtime (children 11, 12, 13, no
arena): an always-continue callback is invoked three times with the item
chains released right after each callback, and a callback breaking on
child 12 is invoked exactly twice. -/
theorem C9_foreach_counts_witness :
    Chain.ForEach wEx rootEx (fun _ => true) =
      (rootEx,
       [.getProperty 0 "_NewEnum", .addRef 11, .release 11, .addRef 12, .release 12,
        .addRef 13, .release 13],
       [mkItemChain false 11, mkItemChain false 12, mkItemChain false 13], []) ∧
    Chain.ForEach wEx rootEx (fun ic => ic.disp != some 12) =
      (rootEx,
       [.getProperty 0 "_NewEnum", .addRef 11, .release 11, .addRef 12, .release 12],
       [mkItemChain false 11, mkItemChain false 12], []) := by
  constructor
  · exact ((C9_foreach_counts wEx rootEx 0 [11, 12, 13] (fun _ => true) rfl rfl
      (by decide)).1 (fun _ => rfl)).trans (by decide)
  · exact ((C9_foreach_counts wEx rootEx 0 [11, 12, 13] (fun ic => ic.disp != some 12)
      rfl rfl (by decide)).2 [11] 12 [13] rfl (by decide) (by decide)).trans (by decide)

/-- Which per-thread establishment steps one `Runner.Do` scope performs:
`runtime.LockOSThread` and `ole.CoInitialize` (with their deferred
unwinds), plus whether the scope passed to `fn` carries the
active-sugar marker. -/
structure InitActions where
  locked : Bool
  coInit : Bool
  innerActive : Bool
deriving DecidableEq

/-- src/runner.go lines 25-56, `Runner.Do`: `isNested` is whether the
parent context already carries `activeSugarKey`; thread pinning and COM
runtime init happen only when not nested; the inner scope is always
marked active. -/
def runnerDo (parentActive : Bool) : InitActions :=
  let isNested := parentActive
  { locked := !isNested, coInit := !isNested, innerActive := true }

/-- src/runner.go lines 60-66, `Runner.Go`: spawns a goroutine that runs
`With(r.parent).Do(fn)` — the parent context, with whatever marker it
carries, is passed through unchanged. -/
def runnerGo (parentActive : Bool) : InitActions :=
  runnerDo parentActive

/-- src/unnamed/part_010 lines 23-51, `Runner.Do` of the forceInit
lineage: `isNested := !r.forceInit && r.parent.Value(activeSugarKey) != nil`. -/
def runnerForceDo (forceInit parentActive : Bool) : InitActions :=
  let isNested := !forceInit && parentActive
  { locked := !isNested, coInit := !isNested, innerActive := true }

/-- src/unnamed/part_010 lines 54-62, `Runner.Go` of the forceInit
lineage: the spawned goroutine runs `Do` with `forceInit: true`. -/
def runnerForceGo (parentActive : Bool) : InitActions :=
  runnerForceDo true parentActive

/-- C6, code bug exhibited: `Runner.Do` initializes exactly when the
calling scope carries no active marker and always marks the inner scope
active (the claim's first half, confirmed), but `Runner.Go` as written in
src/runner.go lines 60-66 passes the parent context through, so on a
parent that already carries the marker the brand-new thread SKIPS
`LockOSThread`/`CoInitialize` — contradicting the code's own comment
("New goroutine always starts fresh, ignoring parent's isNested status")
and the forceInit lineage (src/unnamed/part_010), which does initialize
there. -/
theorem C6_go_skips_fresh_init :
    (∀ p : Bool, (runnerDo p).locked = !p ∧ (runnerDo p).coInit = !p ∧
       (runnerDo p).innerActive = true) ∧
    runnerGo true = { locked := false, coInit := false, innerActive := true } ∧
    runnerForceGo true = { locked := true, coInit := true, innerActive := true } := by
  refine ⟨fun p => ?_, rfl, rfl⟩
  cases p <;> exact ⟨rfl, rfl, rfl⟩

namespace Expression

mutual
/-- The expr-lang AST nodes the evaluator handles
(src/expression/expression.go lines 140-253): identifiers, member access
(whose property is itself a node — a string or identifier node), calls,
literals, and binary operators.  The call node's argument list is the
mutually defined `NodeList` (isomorphic to `List Node`), so the evaluator
below is structurally recursive. -/
inductive Node where
  | ident (name : String)
  | member (obj : Node) (prop : Node)
  | call (callee : Node) (args : NodeList)
  | intLit (n : Int)
  | strLit (s : String)
  | boolLit (b : Bool)
  | floatLit (f : GoFloat)
  | nilLit
  | binary (op : String) (l r : Node)

/-- Argument lists of call nodes. -/
inductive NodeList where
  | nil
  | cons (hd : Node) (tl : NodeList)
end

/-- A Go `interface{}` value inside the evaluator: a scalar or a
`*sugar.Chain`. -/
inductive GoDyn where
  | scalar (v : GoVal)
  | chainv (c : Chain)
deriving DecidableEq

/-- Property-name extraction used by the member and Put paths
(src/expression/expression.go lines 125-130, 165-170): a string node or an
identifier node yields its value, anything else leaves the name empty. -/
def propNameOf (n : Node) : String :=
  match n with
  | .strLit s => s
  | .ident s => s
  | _ => ""

/-- The chain-unwrap prologue of `evalBinary`
(src/expression/expression.go lines 257-271): a Chain operand is collapsed
to its scalar `Value()`. -/
def chainUnwrap (d : GoDyn) : Except String GoDyn :=
  match d with
  | .chainv c =>
    match Chain.Value c with
    | .error e => .error e
    | .ok v => .ok (.scalar v)
  | _ => .ok d

/-- src/expression/expression.go lines 301-309, `isNumber`: integer and
float kinds. -/
def isNumber (d : GoDyn) : Bool :=
  match d with
  | .scalar (.vint _) => true
  | .scalar (.vfloat _) => true
  | _ => false

/-- The `lv.Kind() == reflect.String` test of the `+` branch. -/
def isString (d : GoDyn) : Bool :=
  match d with
  | .scalar (.vstr _) => true
  | _ => false

/-- src/expression/expression.go lines 311-321, `toFloat`: integers are
converted to `float64`, floats pass through, anything else is 0. -/
def toFloat (d : GoDyn) : GoFloat :=
  match d with
  | .scalar (.vint n) => .finite (n : ℚ)
  | .scalar (.vfloat f) => f
  | _ => .finite 0

/-- `fmt.Sprintf "%v"` of one operand, used only by the string-concat
branch of `+`.  Go's rendering of floats (and the unreachable chain case)
is abstracted; no claim depends on it. -/
def govFormat (d : GoDyn) : String :=
  match d with
  | .scalar (.vstr s) => s
  | .scalar (.vint n) => toString n
  | .scalar (.vbool b) => if b then "true" else "false"
  | .scalar .vnull => "<nil>"
  | .scalar (.vfloat _) => "<float>"
  | .chainv _ => "<chain>"

/-- src/expression/expression.go lines 256-299, `evalBinary`: unwrap Chain
operands, then `+` (string concatenation when either side is a string,
float addition when both are numbers), `-`, `*`, `/` over `float64` after
`toFloat` conversion; everything else is the unsupported-operation error
(whose formatted type names are collapsed to a fixed message). -/
def evalBinary (op : String) (l r : GoDyn) : Except String GoDyn :=
  match chainUnwrap l with
  | .error e => .error e
  | .ok left =>
    match chainUnwrap r with
    | .error e => .error e
    | .ok right =>
      if op = "+" then
        if isString left || isString right then
          .ok (.scalar (.vstr (govFormat left ++ govFormat right)))
        else if isNumber left && isNumber right then
          .ok (.scalar (.vfloat ((toFloat left).add (toFloat right))))
        else .error "unsupported binary operation"
      else if op = "-" then
        if isNumber left && isNumber right then
          .ok (.scalar (.vfloat ((toFloat left).sub (toFloat right))))
        else .error "unsupported binary operation"
      else if op = "*" then
        if isNumber left && isNumber right then
          .ok (.scalar (.vfloat ((toFloat left).mul (toFloat right))))
        else .error "unsupported binary operation"
      else if op = "/" then
        if isNumber left && isNumber right then
          .ok (.scalar (.vfloat ((toFloat left).div (toFloat right))))
        else .error "unsupported binary operation"
      else .error "unsupported binary operation"

/-- Collapsing a Chain argument to its scalar `Value()` in the call-node
argument loop (src/expression/expression.go lines 180-188). -/
def argUnwrap (d : GoDyn) : Except String GoVal :=
  match d with
  | .chainv c => Chain.Value c
  | .scalar v => .ok v

mutual
/-- src/expression/expression.go lines 140-253, `comVisitor.eval` in
root-Chain mode (`envMap == nil`, `initialChain` present): identifiers
resolve through `root.Get`; member nodes require a Chain on the left and
`Get` the property; call nodes evaluate-and-unwrap their arguments then
`Call` on the evaluated callee object (or on the root for a bare
identifier callee); literals evaluate to themselves; binary nodes go to
`evalBinary`.  Returns the result and the foreign-call trace. -/
def eval (w : World) (root : Chain) : Node → Except String GoDyn × List FCall
  | .ident name =>
      let (nc, tr, _) := Chain.Get w root name []
      (.ok (.chainv nc), tr)
  | .member obj prop =>
      match eval w root obj with
      | (.error e, tr) => (.error e, tr)
      | (.ok (.chainv ch), tr) =>
          let (nc, tr2, _) := Chain.Get w ch (propNameOf prop) []
          (.ok (.chainv nc), tr ++ tr2)
      | (.ok (.scalar _), tr) => (.error "cannot access property", tr)
  | .call callee args =>
      match evalArgs w root args with
      | (.error e, tr) => (.error e, tr)
      | (.ok vs, tr) =>
        match callee with
        | .member cobj cprop =>
            match eval w root cobj with
            | (.error e, tr2) => (.error e, tr ++ tr2)
            | (.ok (.chainv ch), tr2) =>
                let (nc, tr3, _) := Chain.Call w ch (propNameOf cprop) vs
                (.ok (.chainv nc), tr ++ tr2 ++ tr3)
            | (.ok (.scalar _), tr2) => (.error "cannot call method", tr ++ tr2)
        | .ident mname =>
            let (nc, tr2, _) := Chain.Call w root mname vs
            (.ok (.chainv nc), tr ++ tr2)
        | _ => (.error "unsupported call", tr)
  | .binary op l r =>
      match eval w root l with
      | (.error e, tr) => (.error e, tr)
      | (.ok lv, tr) =>
        match eval w root r with
        | (.error e, tr2) => (.error e, tr ++ tr2)
        | (.ok rv, tr2) => (evalBinary op lv rv, tr ++ tr2)
  | .intLit n => (.ok (.scalar (.vint n)), [])
  | .strLit s => (.ok (.scalar (.vstr s)), [])
  | .boolLit b => (.ok (.scalar (.vbool b)), [])
  | .floatLit f => (.ok (.scalar (.vfloat f)), [])
  | .nilLit => (.ok (.scalar .vnull), [])

/-- The argument loop of the call node (src/expression/expression.go lines
174-189): evaluate each argument left to right, collapse Chains to their
scalar values, stop at the first failure (the `arg %d error` index is
collapsed into a fixed prefix). -/
def evalArgs (w : World) (root : Chain) : NodeList → Except String (List GoVal) × List FCall
  | .nil => (.ok [], [])
  | .cons a as =>
      match eval w root a with
      | (.error e, tr) => (.error e, tr)
      | (.ok d, tr) =>
        match argUnwrap d with
        | .error e => (.error ("arg error: " ++ e), tr)
        | .ok v =>
          match evalArgs w root as with
          | (.error e, tr2) => (.error e, tr ++ tr2)
          | (.ok vs, tr2) => (.ok (v :: vs), tr ++ tr2)
end

/-- src/expression/expression.go lines 92-133, `Put` (after `Compile`; the
expr-lang parser itself is external): the parsed node must be a member
node, otherwise the invalid-put-expression error is returned before any
evaluation; for a member node the left side is evaluated to the parent,
which must be a Chain, and the final property is written through
`Chain.Put` with the given value, returning `.Err()` of the result. -/
def Put (w : World) (root : Chain) (n : Node) (value : GoVal) :
    Option String × List FCall :=
  match n with
  | .member obj prop =>
      match eval w root obj with
      | (.error e, tr) => (some e, tr)
      | (.ok (.scalar _), tr) => (some "parent is not COM object", tr)
      | (.ok (.chainv parentChain), tr) =>
          let (nc, tr2) := Chain.Put w parentChain (propNameOf prop) [value]
          (nc.err, tr ++ tr2)
  | _ => (some "invalid Put expression: must be property access", [])

/-- C7: `Put` on an expression that is not a single member-access node
fails with the invalid-put-expression error before any foreign call; on a
member node it evaluates everything left of the final member access, and
— when that yields a live parent Chain — issues exactly one property
write of the final property name with the given value, returning the
write's error if any (src/expression/expression.go lines 92-133). -/
theorem C7_put_member_only (w : World) (root : Chain) (v : GoVal) :
    (∀ n : Node, (∀ obj prop, n ≠ .member obj prop) →
       Put w root n v = (some "invalid Put expression: must be property access", [])) ∧
    (∀ obj prop pc h tr, eval w root obj = (.ok (.chainv pc), tr) →
       pc.err = none → pc.disp = some h →
       Put w root (.member obj prop) v =
         ((match w.putProp h (propNameOf prop) [v] with
           | .ok _ => none
           | .error e => some e),
          tr ++ [.putProperty h (propNameOf prop)])) := by
  constructor
  · intro n hn
    cases n with
    | member obj prop => exact absurd rfl (hn obj prop)
    | ident name => rfl
    | call callee args => rfl
    | intLit n => rfl
    | strLit s => rfl
    | boolLit b => rfl
    | floatLit f => rfl
    | nilLit => rfl
    | binary op l r => rfl
  · intro obj prop pc h tr heval h1 h2
    simp only [Put, heval]
    rcases hp : w.putProp h (propNameOf prop) [v] with e | u <;>
      simp [Chain.Put, h1, h2, hp]

/-- Witness for C7: `Put` of the call expression `Add()` fails with the
invalid-put-expression error and an empty foreign trace, while `Put` of
the member expression `X.Value` performs the `X` lookup and then exactly
one property write of `Value` on the fetched object. -/
theorem C7_put_member_only_witness :
    Put wEx rootEx (.call (.ident "Add") .nil) (.vint 7) =
      (some "invalid Put expression: must be property access", []) ∧
    Put wEx rootEx (.member (.ident "X") (.ident "Value")) (.vint 7) =
      (none, [.getProperty 0 "X", .addRef 1, .putProperty 1 "Value"]) := by
  constructor
  · exact (C7_put_member_only wEx rootEx (.vint 7)).1 (.call (.ident "Add") .nil)
      (fun obj prop hh => Node.noConfusion hh)
  · have heval : eval wEx rootEx (.ident "X") =
        (.ok (.chainv { disp := some 1, err := none, lastResult := some (.vdisp 1),
                        ctx := false }),
         [.getProperty 0 "X", .addRef 1]) := by
      rfl
    exact ((C7_put_member_only wEx rootEx (.vint 7)).2 (.ident "X") (.ident "Value")
      { disp := some 1, err := none, lastResult := some (.vdisp 1), ctx := false }
      1 [.getProperty 0 "X", .addRef 1] heval rfl rfl).trans (by decide)

/-- C10: when both operands of a binary arithmetic expression are
integers, `evalBinary` converts both to `float64` first and produces a
`float64` result for `+`, `-`, `*` and `/` — never an integer and never an
error, so integer division by zero succeeds (in floating point)
(src/expression/expression.go lines 256-299, 311-321). -/
theorem C10_int_arithmetic_in_float (a b : Int) :
    evalBinary "+" (.scalar (.vint a)) (.scalar (.vint b)) =
      .ok (.scalar (.vfloat (GoFloat.add (.finite (a : ℚ)) (.finite (b : ℚ))))) ∧
    evalBinary "-" (.scalar (.vint a)) (.scalar (.vint b)) =
      .ok (.scalar (.vfloat (GoFloat.sub (.finite (a : ℚ)) (.finite (b : ℚ))))) ∧
    evalBinary "*" (.scalar (.vint a)) (.scalar (.vint b)) =
      .ok (.scalar (.vfloat (GoFloat.mul (.finite (a : ℚ)) (.finite (b : ℚ))))) ∧
    evalBinary "/" (.scalar (.vint a)) (.scalar (.vint b)) =
      .ok (.scalar (.vfloat (GoFloat.div (.finite (a : ℚ)) (.finite (b : ℚ))))) ∧
    (∀ n : Int, evalBinary "/" (.scalar (.vint a)) (.scalar (.vint b)) ≠
      .ok (.scalar (.vint n))) ∧
    (∀ e : String, evalBinary "/" (.scalar (.vint a)) (.scalar (.vint 0)) ≠ .error e) := by
  refine ⟨?_, ?_, ?_, ?_, ?_, ?_⟩ <;>
    simp [evalBinary, chainUnwrap, isString, isNumber, toFloat]

end Expression

end Sugar
